import Mathlib

/-!
Verification of the Personalization and Resource-Delivery core:

* FeedRanker (src/SmartLogic.ts, generateVideoFeed)
* PrefetchEngine (src/smartCache.ts, bufferVideoChunk)
* KeyPoolClient (src/elevenLabsManager.ts, optimizeKeyOrder, getActiveKeyData,
  switchToNextKey, playNarrative)

The TypeScript sources are embedded shallowly:

* JavaScript Array.prototype.sort with a consistent comparator cmp is, by the
  ECMAScript specification (stability is mandated since ES2019), the unique
  stable sort by the total preorder le a b := cmp a b ≤ 0.  It is embedded
  here as stableSort, a stable insertion sort, which produces that same
  unique stable sorted permutation.
* The inconsistent comparator () => 0.5 - Math.random() used for shuffling
  guarantees only that the result is some permutation of the input, so the
  shuffle is an injected parameter constrained to be a permutation.
* Math.random() draws are an injected source rand : Nat -> Rat, the i-th
  draw of a map being rand i.
* The browser Cache, the persisted Firestore config document and the HTTP
  responses are explicit values threaded through the functions; network
  calls are counted.
-/

/-- Stable insertion of one element: the element is placed before the first
position whose inhabitant it le-precedes. -/
def stableInsert {α : Type} (le : α → α → Bool) (a : α) : List α → List α
  | [] => [a]
  | b :: l => if le a b then a :: b :: l else b :: stableInsert le a l

/-- Stable sort by a boolean total preorder; embeds JavaScript
Array.prototype.sort with a consistent comparator. -/
def stableSort {α : Type} (le : α → α → Bool) : List α → List α
  | [] => []
  | a :: l => stableInsert le a (stableSort le l)

theorem stableInsert_perm {α : Type} (le : α → α → Bool) (a : α) (l : List α) :
    (stableInsert le a l).Perm (a :: l) := by
  induction l with
  | nil => exact List.Perm.refl _
  | cons b t ih =>
    by_cases h : le a b
    · simp [stableInsert, h]
    · simp only [stableInsert, h, if_false]
      exact (ih.cons b).trans (List.Perm.swap a b t)

theorem stableSort_perm {α : Type} (le : α → α → Bool) (l : List α) :
    (stableSort le l).Perm l := by
  induction l with
  | nil => exact List.Perm.refl _
  | cons a t ih =>
    exact (stableInsert_perm le a (stableSort le t)).trans (ih.cons a)

theorem mem_stableInsert {α : Type} (le : α → α → Bool) (a x : α) (l : List α)
    (hx : x ∈ stableInsert le a l) : x = a ∨ x ∈ l := by
  have := (stableInsert_perm le a l).mem_iff.mp hx
  simpa using this

theorem stableInsert_pairwise {α : Type} (le : α → α → Bool)
    (htr : ∀ a b c, le a b = true → le b c = true → le a c = true)
    (htot : ∀ a b, le a b = true ∨ le b a = true)
    (a : α) (l : List α) (h : l.Pairwise (fun x y => le x y = true)) :
    (stableInsert le a l).Pairwise (fun x y => le x y = true) := by
  induction l with
  | nil => simp [stableInsert]
  | cons b t ih =>
    rcases List.pairwise_cons.mp h with ⟨hb, ht⟩
    by_cases hab : le a b
    · simp only [stableInsert, hab, if_true]
      refine List.pairwise_cons.mpr ⟨?_, h⟩
      intro y hy
      rcases List.mem_cons.mp hy with rfl | hyt
      · exact hab
      · exact htr a b y hab (hb y hyt)
    · simp only [stableInsert, hab, if_false]
      refine List.pairwise_cons.mpr ⟨?_, ih ht⟩
      intro y hy
      rcases mem_stableInsert le a y t hy with hya | hyt
      · rw [hya]
        rcases htot a b with h1 | h1
        · exact absurd h1 hab
        · exact h1
      · exact hb y hyt

theorem stableSort_pairwise {α : Type} (le : α → α → Bool)
    (htr : ∀ a b c, le a b = true → le b c = true → le a c = true)
    (htot : ∀ a b, le a b = true ∨ le b a = true)
    (l : List α) : (stableSort le l).Pairwise (fun x y => le x y = true) := by
  induction l with
  | nil => simp [stableSort]
  | cons a t ih => exact stableInsert_pairwise le htr htot a (stableSort le t) ih

/-! ## FeedRanker: src/SmartLogic.ts, generateVideoFeed -/

/-- Video record (src/types.ts); only the fields read by the core engines are
carried: id, category, is_trending for ranking, the two URLs for prefetch. -/
structure Video where
  id : String
  title : String
  category : String
  is_trending : Bool
  video_url : String
  poster_url : String
  deriving DecidableEq, Repr, Inhabited

/-- Entry of UserInteractions.watchHistory (src/types.ts). -/
structure WatchEntry where
  id : String
  progress : ℚ
  deriving DecidableEq, Repr

/-- UserInteractions (src/types.ts). -/
structure UserInteractions where
  likedIds : List String
  dislikedIds : List String
  savedIds : List String
  savedCategoryNames : List String
  watchHistory : List WatchEntry
  downloadedIds : List String
  deriving DecidableEq, Repr

/-- Ids marked watched: watchHistory entries with progress above 0.80
(SmartLogic.ts lines 45-49). -/
def watchedIdsOf (interactions : UserInteractions) : List String :=
  (interactions.watchHistory.filter (fun h => decide (h.progress > 0.80))).map
    (fun h => h.id)

/-- Pool of videos neither watched nor disliked (SmartLogic.ts line 53). -/
def unwatchedPoolOf (allVideos : List Video) (interactions : UserInteractions) :
    List Video :=
  allVideos.filter
    (fun v => decide (v.id ∉ watchedIdsOf interactions ∧
      v.id ∉ interactions.dislikedIds))

/-- Pool of watched, not disliked videos (SmartLogic.ts line 54). -/
def watchedPoolOf (allVideos : List Video) (interactions : UserInteractions) :
    List Video :=
  allVideos.filter
    (fun v => decide (v.id ∈ watchedIdsOf interactions ∧
      v.id ∉ interactions.dislikedIds))

/-- Deterministic part of the score: +50 for an interest-category match, +20
for trending (SmartLogic.ts lines 66-73). -/
def videoBoost (interests : List String) (v : Video) : ℚ :=
  (if v.category ∈ interests then 50 else 0) + (if v.is_trending then 20 else 0)

/-- Scored pool: the i-th pool element is paired with rand i * 10 plus its
boost, rand i being the i-th Math.random() draw (SmartLogic.ts lines 62-76). -/
def scoredPool (interests : List String) (rand : Nat → ℚ) (pool : List Video) :
    List (Video × ℚ) :=
  pool.enum.map (fun p => (p.2, rand p.1 * 10 + videoBoost interests p.2))

/-- Scenario A: the unwatched pool scored, then sorted by the comparator
(a, b) => b.score - a.score, so a may stay before b iff b.score - a.score ≤ 0
(SmartLogic.ts lines 62-80). -/
def rankedUnwatched (interests : List String) (rand : Nat → ℚ)
    (pool : List Video) : List Video :=
  (stableSort (fun a b => decide (b.2 - a.2 ≤ (0 : ℚ)))
    (scoredPool interests rand pool)).map Prod.fst

/-- Steps 3-4 of generateVideoFeed: rank the unwatched pool if non-empty,
otherwise shuffle the watched pool (SmartLogic.ts lines 60-87). -/
def baseFeed (interests : List String) (rand : Nat → ℚ)
    (shuffle : List Video → List Video)
    (allVideos : List Video) (interactions : UserInteractions) : List Video :=
  if 0 < (unwatchedPoolOf allVideos interactions).length then
    rankedUnwatched interests rand (unwatchedPoolOf allVideos interactions)
  else shuffle (watchedPoolOf allVideos interactions)

/-- Step 6 of generateVideoFeed: drop every video whose id was already seen,
keeping first occurrences (SmartLogic.ts lines 96-101). -/
def dedupFeed : List Video → List String → List Video
  | [], _ => []
  | v :: rest, seen =>
    if v.id ∈ seen then dedupFeed rest seen
    else v :: dedupFeed rest (v.id :: seen)

/-- generateVideoFeed (SmartLogic.ts lines 40-104).  The interest list is the
instance state this.localInterests; rand is the injected Math.random() source
and shuffle the injected permutation produced by sorting with the
inconsistent comparator () => 0.5 - Math.random(). -/
def generateVideoFeed (interests : List String) (rand : Nat → ℚ)
    (shuffle : List Video → List Video)
    (allVideos : List Video) (interactions : UserInteractions) : List Video :=
  if allVideos.length = 0 then []
  else
    dedupFeed
      (if (baseFeed interests rand shuffle allVideos interactions).length = 0 ∧
          0 < allVideos.length then shuffle allVideos
       else baseFeed interests rand shuffle allVideos interactions) []

theorem dedupFeed_sublist :
    ∀ (l : List Video) (seen : List String), List.Sublist (dedupFeed l seen) l := by
  intro l
  induction l with
  | nil => intro seen; simp [dedupFeed]
  | cons v rest ih =>
    intro seen
    by_cases h : v.id ∈ seen
    · simp only [dedupFeed, h, if_true]
      exact (ih seen).cons v
    · simp only [dedupFeed, h, if_false]
      exact (ih (v.id :: seen)).cons₂ v

theorem dedupFeed_ne_nil (v : Video) (rest : List Video) :
    dedupFeed (v :: rest) [] ≠ [] := by
  simp [dedupFeed]

theorem dedupFeed_nodup_aux :
    ∀ (l : List Video) (seen : List String),
      ((dedupFeed l seen).map (fun v => v.id)).Nodup ∧
      ∀ v ∈ dedupFeed l seen, v.id ∉ seen := by
  intro l
  induction l with
  | nil => intro seen; simp [dedupFeed]
  | cons v rest ih =>
    intro seen
    by_cases h : v.id ∈ seen
    · simpa [dedupFeed, h] using ih seen
    · simp only [dedupFeed, h, if_false]
      rcases ih (v.id :: seen) with ⟨hnd, hseen⟩
      constructor
      · simp only [List.map_cons, List.nodup_cons]
        refine ⟨?_, hnd⟩
        intro hmem
        rcases List.mem_map.mp hmem with ⟨w, hw, hwid⟩
        exact (hseen w hw) (by simp [hwid])
      · intro w hw
        rcases List.mem_cons.mp hw with rfl | hw2
        · exact h
        · intro hcon
          exact (hseen w hw2) (List.mem_cons_of_mem _ hcon)

theorem dedupFeed_eq_self :
    ∀ (l : List Video) (seen : List String),
      ((l.map (fun v => v.id)).Nodup) → (∀ v ∈ l, v.id ∉ seen) →
      dedupFeed l seen = l := by
  intro l
  induction l with
  | nil => intro seen _ _; rfl
  | cons v rest ih =>
    intro seen hnd hseen
    have hv : v.id ∉ seen := hseen v (List.mem_cons_self v rest)
    simp only [dedupFeed, hv, if_false]
    have hnd2 := hnd
    simp only [List.map_cons, List.nodup_cons] at hnd2
    rcases hnd2 with ⟨hvrest, hndrest⟩
    congr 1
    refine ih (v.id :: seen) hndrest ?_
    intro w hw
    intro hcon
    rcases List.mem_cons.mp hcon with heq | hmem
    · apply hvrest
      rw [← heq]
      exact List.mem_map_of_mem (fun x => x.id) hw
    · exact hseen w (List.mem_cons_of_mem _ hw) hmem

theorem ne_nil_of_perm_ne_nil {α : Type} {l m : List α} (h : l.Perm m)
    (hm : m ≠ []) : l ≠ [] := by
  intro h0
  subst h0
  exact hm h.symm.eq_nil

theorem scoredPool_map_fst (interests : List String) (rand : Nat → ℚ)
    (pool : List Video) : (scoredPool interests rand pool).map Prod.fst = pool := by
  unfold scoredPool
  rw [List.map_map]
  exact List.enum_map_snd pool

theorem rankedUnwatched_perm (interests : List String) (rand : Nat → ℚ)
    (pool : List Video) : (rankedUnwatched interests rand pool).Perm pool := by
  unfold rankedUnwatched
  have h := (stableSort_perm (fun a b : Video × ℚ => decide (b.2 - a.2 ≤ (0 : ℚ)))
    (scoredPool interests rand pool)).map Prod.fst
  rw [scoredPool_map_fst] at h
  exact h

theorem baseFeed_subset (interests : List String) (rand : Nat → ℚ)
    (shuffle : List Video → List Video)
    (allVideos : List Video) (interactions : UserInteractions)
    (hsh : ∀ l, (shuffle l).Perm l) :
    ∀ v ∈ baseFeed interests rand shuffle allVideos interactions, v ∈ allVideos := by
  intro v hv
  unfold baseFeed at hv
  by_cases hp : 0 < (unwatchedPoolOf allVideos interactions).length
  · rw [if_pos hp] at hv
    have h1 : v ∈ unwatchedPoolOf allVideos interactions :=
      (rankedUnwatched_perm interests rand _).subset hv
    exact (List.mem_filter.mp h1).1
  · rw [if_neg hp] at hv
    have h1 : v ∈ watchedPoolOf allVideos interactions := (hsh _).subset hv
    exact (List.mem_filter.mp h1).1

/-- Claim C1: for every non-empty corpus and every interaction state,
including states in which every id is disliked or watched, generateVideoFeed
returns a non-empty list (safety-net property). -/
theorem claim_C1_feed_nonempty (interests : List String) (rand : Nat → ℚ)
    (shuffle : List Video → List Video)
    (allVideos : List Video) (interactions : UserInteractions)
    (hsh : ∀ l, (shuffle l).Perm l) (hne : allVideos ≠ []) :
    generateVideoFeed interests rand shuffle allVideos interactions ≠ [] := by
  unfold generateVideoFeed
  have hlen : ¬ allVideos.length = 0 := fun h => hne (List.length_eq_zero.mp h)
  rw [if_neg hlen]
  by_cases hcond : (baseFeed interests rand shuffle allVideos interactions).length = 0 ∧
      0 < allVideos.length
  · rw [if_pos hcond]
    have hs : shuffle allVideos ≠ [] := ne_nil_of_perm_ne_nil (hsh allVideos) hne
    cases hsl : shuffle allVideos with
    | nil => exact absurd hsl hs
    | cons v rest => exact dedupFeed_ne_nil v rest
  · rw [if_neg hcond]
    have hb : baseFeed interests rand shuffle allVideos interactions ≠ [] := by
      intro h0
      exact hcond ⟨by rw [h0]; rfl, Nat.pos_of_ne_zero hlen⟩
    cases hbl : baseFeed interests rand shuffle allVideos interactions with
    | nil => exact absurd hbl hb
    | cons v rest => exact dedupFeed_ne_nil v rest

/-- Witness for C1 on a concrete one-video corpus. -/
def vidA : Video :=
  { id := "a", title := "Video A", category := "cats", is_trending := false,
    video_url := "https://pub-r2/a.mp4", poster_url := "https://pub-r2/a.jpg" }

/-- Second concrete video, distinct id and category, trending. -/
def vidB : Video :=
  { id := "b", title := "Video B", category := "dogs", is_trending := true,
    video_url := "https://pub-r2/b.mp4", poster_url := "https://pub-r2/b.jpg" }

/-- Interaction state with no history at all. -/
def emptyInteractions : UserInteractions :=
  { likedIds := [], dislikedIds := [], savedIds := [], savedCategoryNames := [],
    watchHistory := [], downloadedIds := [] }

/-- Interaction state in which vidA has been fully watched. -/
def watchedAInteractions : UserInteractions :=
  { likedIds := [], dislikedIds := [], savedIds := [], savedCategoryNames := [],
    watchHistory := [{ id := "a", progress := 1 }], downloadedIds := [] }

theorem claim_C1_witness :
    generateVideoFeed [] (fun _ => 0) (fun l => l) [vidA] emptyInteractions ≠ [] :=
  claim_C1_feed_nonempty [] (fun _ => 0) (fun l => l) [vidA] emptyInteractions
    (fun l => List.Perm.refl l) (by decide)

/-- Claim C2: for every corpus and interaction state the output has no two
elements with the same id and every output id is an id of the corpus. -/
theorem claim_C2_feed_nodup_subset (interests : List String) (rand : Nat → ℚ)
    (shuffle : List Video → List Video)
    (allVideos : List Video) (interactions : UserInteractions)
    (hsh : ∀ l, (shuffle l).Perm l) :
    ((generateVideoFeed interests rand shuffle allVideos interactions).map
      (fun v => v.id)).Nodup ∧
    ∀ v ∈ generateVideoFeed interests rand shuffle allVideos interactions,
      v.id ∈ allVideos.map (fun w => w.id) := by
  constructor
  · unfold generateVideoFeed
    by_cases h0 : allVideos.length = 0
    · simp [h0]
    · rw [if_neg h0]
      exact (dedupFeed_nodup_aux _ []).1
  · intro v hv
    have hmem : v ∈ allVideos := by
      unfold generateVideoFeed at hv
      by_cases h0 : allVideos.length = 0
      · rw [if_pos h0] at hv
        exact absurd hv (List.not_mem_nil v)
      · rw [if_neg h0] at hv
        have hv2 := (dedupFeed_sublist _ _).subset hv
        by_cases hcond : (baseFeed interests rand shuffle allVideos interactions).length = 0 ∧
            0 < allVideos.length
        · rw [if_pos hcond] at hv2
          exact (hsh allVideos).subset hv2
        · rw [if_neg hcond] at hv2
          exact baseFeed_subset interests rand shuffle allVideos interactions hsh v hv2
    exact List.mem_map_of_mem (fun w => w.id) hmem

theorem claim_C2_witness :
    ((generateVideoFeed [] (fun _ => 0) (fun l => l) [vidA, vidB]
      emptyInteractions).map (fun v => v.id)).Nodup ∧
    ∀ v ∈ generateVideoFeed [] (fun _ => 0) (fun l => l) [vidA, vidB]
      emptyInteractions, v.id ∈ [vidA, vidB].map (fun w => w.id) :=
  claim_C2_feed_nodup_subset [] (fun _ => 0) (fun l => l) [vidA, vidB]
    emptyInteractions (fun l => List.Perm.refl l)

/-- Claim C7: on a corpus with pairwise-distinct ids in which every id is
watched past 0.8 and none disliked, the feed is a permutation of the corpus
(recycle path). -/
theorem claim_C7_recycle_perm (interests : List String) (rand : Nat → ℚ)
    (shuffle : List Video → List Video)
    (allVideos : List Video) (interactions : UserInteractions)
    (hsh : ∀ l, (shuffle l).Perm l)
    (hnd : (allVideos.map (fun v => v.id)).Nodup)
    (hw : ∀ v ∈ allVideos, v.id ∈ watchedIdsOf interactions)
    (hd : ∀ v ∈ allVideos, v.id ∉ interactions.dislikedIds) :
    (generateVideoFeed interests rand shuffle allVideos interactions).Perm
      allVideos := by
  by_cases h0 : allVideos.length = 0
  · unfold generateVideoFeed
    rw [if_pos h0, List.length_eq_zero.mp h0]
  · unfold generateVideoFeed
    rw [if_neg h0]
    have hun : unwatchedPoolOf allVideos interactions = [] := by
      apply List.filter_eq_nil_iff.mpr
      intro v hv
      simp only [decide_eq_true_eq, not_and, not_not]
      intro hnw
      exact absurd (hw v hv) hnw
    have hwp : watchedPoolOf allVideos interactions = allVideos := by
      apply List.filter_eq_self.mpr
      intro v hv
      simp only [decide_eq_true_eq]
      exact ⟨hw v hv, hd v hv⟩
    have hbf : baseFeed interests rand shuffle allVideos interactions =
        shuffle allVideos := by
      unfold baseFeed
      rw [hun, hwp]
      simp
    rw [hbf]
    have hperm := hsh allVideos
    have hcond : ¬ ((shuffle allVideos).length = 0 ∧ 0 < allVideos.length) := by
      rintro ⟨hl, _⟩
      exact h0 (by rw [← hperm.length_eq]; exact hl)
    rw [if_neg hcond]
    have hnd2 : ((shuffle allVideos).map (fun v => v.id)).Nodup :=
      ((hperm.map (fun v => v.id)).nodup_iff).mpr hnd
    rw [dedupFeed_eq_self _ [] hnd2 (by intro v _; simp)]
    exact hperm

theorem claim_C7_witness :
    (generateVideoFeed [] (fun _ => 0) (fun l => l) [vidA]
      watchedAInteractions).Perm [vidA] := by
  have heval : watchedIdsOf watchedAInteractions = ["a"] := by
    norm_num [watchedIdsOf, watchedAInteractions, List.filter]
  refine claim_C7_recycle_perm [] (fun _ => 0) (fun l => l) [vidA]
    watchedAInteractions (fun l => List.Perm.refl l) (by decide) ?_ (by decide)
  intro v hv
  rw [heval]
  rcases List.mem_singleton.mp hv with rfl
  decide

/-- Score of a pool member: ten times its Math.random() draw (the draw index
being its position in the pool, unique when the pool has no duplicates) plus
its deterministic boost (SmartLogic.ts lines 62-76). -/
def feedScore (interests : List String) (rand : Nat → ℚ) (pool : List Video)
    (v : Video) : ℚ :=
  rand (pool.indexOf v) * 10 + videoBoost interests v

/-- Claim C6 (amended with pairwise-distinct corpus ids): when the unwatched
pool is non-empty, the feed is that pool sorted in descending score order,
that is a permutation of the pool that is pairwise non-increasing on
feedScore. -/
theorem claim_C6_scenarioA (interests : List String) (rand : Nat → ℚ)
    (shuffle : List Video → List Video)
    (allVideos : List Video) (interactions : UserInteractions)
    (hnd : (allVideos.map (fun v => v.id)).Nodup)
    (hrand : ∀ i, 0 ≤ rand i ∧ rand i < 1)
    (hpool : unwatchedPoolOf allVideos interactions ≠ []) :
    (generateVideoFeed interests rand shuffle allVideos interactions).Perm
      (unwatchedPoolOf allVideos interactions) ∧
    (generateVideoFeed interests rand shuffle allVideos interactions).Pairwise
      (fun u v =>
        feedScore interests rand (unwatchedPoolOf allVideos interactions) v ≤
        feedScore interests rand (unwatchedPoolOf allVideos interactions) u) := by
  clear hrand
  set pool := unwatchedPoolOf allVideos interactions with hpooldef
  have hne : allVideos ≠ [] := by
    rcases List.exists_mem_of_ne_nil pool hpool with ⟨v, hv⟩
    have : v ∈ allVideos := (List.mem_filter.mp (hpooldef ▸ hv)).1
    exact List.ne_nil_of_mem this
  have h0 : ¬ allVideos.length = 0 := fun h => hne (List.length_eq_zero.mp h)
  have hp : 0 < pool.length := List.length_pos.mpr hpool
  have hbf : baseFeed interests rand shuffle allVideos interactions =
      rankedUnwatched interests rand pool := by
    unfold baseFeed
    rw [if_pos (hpooldef ▸ hp)]
  have hperm : (rankedUnwatched interests rand pool).Perm pool :=
    rankedUnwatched_perm interests rand pool
  have hndpool : (pool.map (fun v => v.id)).Nodup := by
    have hsub : List.Sublist (pool.map (fun v => v.id))
        (allVideos.map (fun v => v.id)) :=
      (List.filter_sublist allVideos).map (fun v => v.id)
    exact hnd.sublist hsub
  have hndr : ((rankedUnwatched interests rand pool).map (fun v => v.id)).Nodup :=
    ((hperm.map (fun v => v.id)).nodup_iff).mpr hndpool
  have hout : generateVideoFeed interests rand shuffle allVideos interactions =
      rankedUnwatched interests rand pool := by
    unfold generateVideoFeed
    rw [if_neg h0, hbf]
    have hcond : ¬ ((rankedUnwatched interests rand pool).length = 0 ∧
        0 < allVideos.length) := by
      rintro ⟨hl, _⟩
      rw [hperm.length_eq] at hl
      omega
    rw [if_neg hcond]
    exact dedupFeed_eq_self _ [] hndr (by intro v _; simp)
  rw [hout]
  refine ⟨hperm, ?_⟩
  unfold rankedUnwatched
  set le : Video × ℚ → Video × ℚ → Bool :=
    fun a b => decide (b.2 - a.2 ≤ (0 : ℚ)) with hle
  have htr : ∀ a b c, le a b = true → le b c = true → le a c = true := by
    intro a b c h1 h2
    rw [hle] at h1 h2 ⊢
    simp only [decide_eq_true_eq] at h1 h2 ⊢
    linarith
  have htot : ∀ a b, le a b = true ∨ le b a = true := by
    intro a b
    rw [hle]
    simp only [decide_eq_true_eq]
    rcases le_total b.2 a.2 with h | h
    · exact Or.inl (by linarith)
    · exact Or.inr (by linarith)
  have hsorted := stableSort_pairwise le htr htot (scoredPool interests rand pool)
  have hsorted2 : (stableSort le (scoredPool interests rand pool)).Pairwise
      (fun a b : Video × ℚ => b.2 ≤ a.2) := by
    refine hsorted.imp ?_
    intro a b h
    rw [hle] at h
    simpa [sub_nonpos] using of_decide_eq_true h
  have hndv : pool.Nodup := hndpool.of_map (fun v => v.id)
  have hsnd : ∀ p ∈ stableSort le (scoredPool interests rand pool),
      p.2 = feedScore interests rand pool p.1 := by
    intro p hp2
    have hmem : p ∈ scoredPool interests rand pool :=
      (stableSort_perm le (scoredPool interests rand pool)).subset hp2
    unfold scoredPool at hmem
    rcases List.mem_map.mp hmem with ⟨q, hq, rfl⟩
    obtain ⟨i, v⟩ := q
    have hget : pool[i]? = some v := List.mk_mem_enum_iff_getElem?.mp hq
    rcases List.getElem?_eq_some.mp hget with ⟨hi, hgi⟩
    have hidx : pool.indexOf v = i := by
      rw [← hgi]
      exact List.indexOf_getElem hndv i hi
    simp only [feedScore, hidx]
  have hsorted3 : (stableSort le (scoredPool interests rand pool)).Pairwise
      (fun a b : Video × ℚ =>
        feedScore interests rand pool b.1 ≤ feedScore interests rand pool a.1) := by
    refine List.Pairwise.imp_of_mem ?_ hsorted2
    intro a b ha hb h
    rw [← hsnd a ha, ← hsnd b hb]
    exact h
  exact List.pairwise_map.mpr hsorted3

/-- Counterexample to C6 as stated: on the duplicate-id corpus [vidA, vidA]
with empty interactions the unwatched pool is [vidA, vidA], but the feed is
deduplicated to a single element, hence not the sorted pool. -/
theorem claim_C6_counterexample :
    ¬ (generateVideoFeed [] (fun _ => 0) (fun l => l) [vidA, vidA]
        emptyInteractions).Perm (unwatchedPoolOf [vidA, vidA] emptyInteractions) := by
  have h1 : generateVideoFeed [] (fun _ => 0) (fun l => l) [vidA, vidA]
      emptyInteractions = [vidA] := by
    norm_num [generateVideoFeed, baseFeed, unwatchedPoolOf, watchedPoolOf,
      watchedIdsOf, rankedUnwatched, scoredPool, stableSort, stableInsert,
      dedupFeed, videoBoost, vidA, emptyInteractions, List.enum, List.filter]
  have h2 : unwatchedPoolOf [vidA, vidA] emptyInteractions = [vidA, vidA] := by
    norm_num [unwatchedPoolOf, watchedIdsOf, emptyInteractions, List.filter]
  rw [h1, h2]
  intro hp
  have := hp.length_eq
  simp at this

theorem claim_C6_witness :
    (generateVideoFeed [] (fun _ => 0) (fun l => l) [vidB]
      emptyInteractions).Perm (unwatchedPoolOf [vidB] emptyInteractions) ∧
    (generateVideoFeed [] (fun _ => 0) (fun l => l) [vidB]
      emptyInteractions).Pairwise
      (fun u v =>
        feedScore [] (fun _ => 0) (unwatchedPoolOf [vidB] emptyInteractions) v ≤
        feedScore [] (fun _ => 0) (unwatchedPoolOf [vidB] emptyInteractions) u) :=
  claim_C6_scenarioA [] (fun _ => 0) (fun l => l) [vidB] emptyInteractions
    (by decide) (fun i => ⟨le_refl 0, by norm_num⟩) (by decide)

/-! ## PrefetchEngine: src/smartCache.ts, bufferVideoChunk -/

/-- Test that a URL starts with the four characters h t t p, embedding the
JavaScript url.startsWith call of smartCache.ts line 13. -/
def hasHttpScheme (url : String) : Bool :=
  decide (url.data.take 4 = ['h', 't', 't', 'p'])

/-- Outcome of the injected range fetch: HTTP status, optional Content-Type
header and blob size; a network exception is modelled as status 0. -/
structure FetchChunkResponse where
  status : Nat
  contentType : Option String
  blobSize : Nat
  deriving DecidableEq, Repr

/-- Entry written into the rooh-video-buffer cache bucket (smartCache.ts
lines 31-39): rebuilt 200 response with adjusted headers. -/
structure CacheEntry where
  contentType : String
  contentLength : Nat
  smartBuffer : Bool
  deriving DecidableEq, Repr

/-- Response.ok of the fetch API: status in the 200-299 range. -/
def okStatus (s : Nat) : Bool := decide (200 ≤ s ∧ s ≤ 299)

/-- Cache.match keyed by URL. -/
def cacheMatch : List (String × CacheEntry) → String → Option CacheEntry
  | [], _ => none
  | (k, e) :: rest, url => if k = url then some e else cacheMatch rest url

/-- Cache.put keyed by URL: replaces an existing entry, else appends. -/
def cachePut : List (String × CacheEntry) → String → CacheEntry →
    List (String × CacheEntry)
  | [], url, e => [(url, e)]
  | (k, e0) :: rest, url, e =>
    if k = url then (k, e) :: rest else (k, e0) :: cachePut rest url e

/-- Number of entries stored under a URL. -/
def countUrl (cache : List (String × CacheEntry)) (url : String) : Nat :=
  (cache.filter (fun p => decide (p.1 = url))).length

/-- bufferVideoChunk (smartCache.ts lines 12-46).  The pair returned is the
cache after the call and the number of network fetches performed (0 or 1).
Guards in order: absent or non-http URL, already cached, then the fetch; the
body is stored only on an ok or 206 status, all failures are swallowed. -/
def bufferVideoChunk (fetchResult : FetchChunkResponse)
    (cache : List (String × CacheEntry)) (url : String) :
    List (String × CacheEntry) × Nat :=
  if url = "" ∨ hasHttpScheme url = false then (cache, 0)
  else if (cacheMatch cache url).isSome then (cache, 0)
  else if okStatus fetchResult.status || fetchResult.status == 206 then
    (cachePut cache url
      { contentType := fetchResult.contentType.getD "video/mp4",
        contentLength := fetchResult.blobSize, smartBuffer := true }, 1)
  else (cache, 1)

theorem countUrl_eq_zero_of_match_none :
    ∀ (cache : List (String × CacheEntry)) (url : String),
      cacheMatch cache url = none → countUrl cache url = 0 := by
  intro cache
  induction cache with
  | nil => intro url _; rfl
  | cons p rest ih =>
    intro url h
    obtain ⟨k, e⟩ := p
    by_cases hk : k = url
    · rw [cacheMatch, if_pos hk] at h
      exact absurd h (by simp)
    · rw [cacheMatch, if_neg hk] at h
      simpa [countUrl, List.filter, hk] using ih url h

theorem cachePut_of_match_none :
    ∀ (cache : List (String × CacheEntry)) (url : String) (e : CacheEntry),
      cacheMatch cache url = none → cachePut cache url e = cache ++ [(url, e)] := by
  intro cache
  induction cache with
  | nil => intro url e _; rfl
  | cons p rest ih =>
    intro url e h
    obtain ⟨k, e0⟩ := p
    by_cases hk : k = url
    · rw [cacheMatch, if_pos hk] at h
      exact absurd h (by simp)
    · rw [cacheMatch, if_neg hk] at h
      rw [cachePut, if_neg hk, ih url e h]
      rfl

theorem cacheMatch_append_right :
    ∀ (c d : List (String × CacheEntry)) (url : String),
      cacheMatch c url = none → cacheMatch (c ++ d) url = cacheMatch d url := by
  intro c
  induction c with
  | nil => intro d url _; rfl
  | cons p rest ih =>
    intro d url h
    obtain ⟨k, e⟩ := p
    by_cases hk : k = url
    · rw [cacheMatch, if_pos hk] at h
      exact absurd h (by simp)
    · rw [cacheMatch, if_neg hk] at h
      rw [List.cons_append, cacheMatch, if_neg hk]
      exact ih d url h

theorem countUrl_append (c d : List (String × CacheEntry)) (url : String) :
    countUrl (c ++ d) url = countUrl c url + countUrl d url := by
  simp [countUrl, List.filter_append]

/-- Claim C8 (amended): a repeated bufferVideoChunk call on a valid,
uncached URL whose fetch succeeds stores exactly one entry and fetches
exactly once; an invalid URL, or a URL already cached, is a strict no-op
with no fetch. -/
theorem claim_C8_buffer_idempotent (r r2 : FetchChunkResponse)
    (cache : List (String × CacheEntry)) (url : String) :
    (¬ (url = "" ∨ hasHttpScheme url = false) →
      cacheMatch cache url = none →
      (okStatus r.status || r.status == 206) = true →
      countUrl (bufferVideoChunk r2 (bufferVideoChunk r cache url).1 url).1 url = 1 ∧
      (bufferVideoChunk r cache url).2 +
        (bufferVideoChunk r2 (bufferVideoChunk r cache url).1 url).2 = 1) ∧
    ((url = "" ∨ hasHttpScheme url = false) →
      bufferVideoChunk r cache url = (cache, 0)) ∧
    ((cacheMatch cache url).isSome →
      bufferVideoChunk r cache url = (cache, 0)) := by
  refine ⟨?_, ?_, ?_⟩
  · intro hvalid habsent hok
    have hmatchnone : ¬ (cacheMatch cache url).isSome = true := by
      rw [habsent]
      simp
    have h1 : bufferVideoChunk r cache url =
        (cachePut cache url
          { contentType := r.contentType.getD "video/mp4",
            contentLength := r.blobSize, smartBuffer := true }, 1) := by
      unfold bufferVideoChunk
      rw [if_neg hvalid, if_neg hmatchnone, if_pos hok]
    set e : CacheEntry :=
      { contentType := r.contentType.getD "video/mp4",
        contentLength := r.blobSize, smartBuffer := true } with he
    have hput : cachePut cache url e = cache ++ [(url, e)] :=
      cachePut_of_match_none cache url e habsent
    have hmatch1 : cacheMatch (cachePut cache url e) url = some e := by
      rw [hput, cacheMatch_append_right cache [(url, e)] url habsent]
      simp [cacheMatch]
    have h2 : bufferVideoChunk r2 (cachePut cache url e) url =
        (cachePut cache url e, 0) := by
      unfold bufferVideoChunk
      rw [if_neg hvalid]
      rw [hmatch1]
      simp
    rw [h1, h2]
    constructor
    · rw [hput, countUrl_append,
        countUrl_eq_zero_of_match_none cache url habsent]
      simp [countUrl, List.filter]
    · rfl
  · intro hinvalid
    unfold bufferVideoChunk
    rw [if_pos hinvalid]
  · intro hcached
    unfold bufferVideoChunk
    by_cases hinvalid : url = "" ∨ hasHttpScheme url = false
    · rw [if_pos hinvalid]
    · rw [if_neg hinvalid, if_pos hcached]

/-- Counterexample to C8 as stated: on the valid URL http://x whose fetch
fails with status 500 both calls fetch (two fetches) and nothing is stored. -/
theorem claim_C8_counterexample :
    ¬ (countUrl (bufferVideoChunk ⟨500, none, 0⟩
          (bufferVideoChunk ⟨500, none, 0⟩ [] "http://x").1 "http://x").1
        "http://x" = 1 ∧
      (bufferVideoChunk ⟨500, none, 0⟩ [] "http://x").2 +
        (bufferVideoChunk ⟨500, none, 0⟩
          (bufferVideoChunk ⟨500, none, 0⟩ [] "http://x").1 "http://x").2 ≤ 1) := by
  decide

theorem claim_C8_witness :
    ¬ ("http://x" = "" ∨ hasHttpScheme "http://x" = false) ∧
    cacheMatch [] "http://x" = none ∧
    (okStatus (200 : Nat) || (200 : Nat) == 206) = true ∧
    (countUrl (bufferVideoChunk ⟨206, some "video/mp4", 7⟩
        (bufferVideoChunk ⟨200, some "video/mp4", 7⟩ [] "http://x").1 "http://x").1
      "http://x" = 1 ∧
    (bufferVideoChunk ⟨200, some "video/mp4", 7⟩ [] "http://x").2 +
      (bufferVideoChunk ⟨206, some "video/mp4", 7⟩
        (bufferVideoChunk ⟨200, some "video/mp4", 7⟩ [] "http://x").1 "http://x").2 = 1) :=
  ⟨by decide, by decide, by decide,
    (claim_C8_buffer_idempotent ⟨200, some "video/mp4", 7⟩ ⟨206, some "video/mp4", 7⟩
      [] "http://x").1 (by decide) (by decide) (by decide)⟩

/-! ## KeyPoolClient: src/elevenLabsManager.ts -/

/-- Persisted settings/api_config document fields used by the key pool. -/
structure ApiConfig where
  elevenlabs_keys : List String
  elevenlabs_index : Nat
  deriving DecidableEq, Repr

/-- Result of getActiveKeyData (elevenLabsManager.ts line 120). -/
structure KeyData where
  key : String
  index : Nat
  totalKeys : Nat
  allKeys : List String
  deriving DecidableEq, Repr

/-- getActiveKeyData (elevenLabsManager.ts lines 99-125): resolves the
current key from the persisted list and index; an index at or past the end
of the list is reset to 0, and an empty pool yields none. -/
def getActiveKeyData (cfg : ApiConfig) : Option KeyData :=
  if cfg.elevenlabs_keys.length = 0 then none
  else
    let ci := if cfg.elevenlabs_keys.length ≤ cfg.elevenlabs_index then 0
      else cfg.elevenlabs_index
    some { key := cfg.elevenlabs_keys.getD ci "", index := ci,
           totalKeys := cfg.elevenlabs_keys.length,
           allKeys := cfg.elevenlabs_keys }

/-- switchToNextKey (elevenLabsManager.ts lines 128-138): persists
oldIndex + 1 as the new rotation index. -/
def switchToNextKey (cfg : ApiConfig) (oldIndex : Nat) : ApiConfig :=
  { cfg with elevenlabs_index := oldIndex + 1 }

/-- Claim C4 (amended): with a non-empty key list the resolved key is
keys[i] when the stored index i is in bounds and keys[0] otherwise (reset,
not reduction modulo the length); in particular the resolved index is always
in bounds. -/
theorem claim_C4_key_resolution (cfg : ApiConfig)
    (h : cfg.elevenlabs_keys ≠ []) :
    ∃ kd, getActiveKeyData cfg = some kd ∧
      kd.index < cfg.elevenlabs_keys.length ∧
      kd.key = cfg.elevenlabs_keys.getD kd.index "" ∧
      kd.index = (if cfg.elevenlabs_index < cfg.elevenlabs_keys.length
        then cfg.elevenlabs_index else 0) := by
  have hlen : ¬ cfg.elevenlabs_keys.length = 0 :=
    fun h0 => h (List.length_eq_zero.mp h0)
  by_cases hc : cfg.elevenlabs_keys.length ≤ cfg.elevenlabs_index
  · refine ⟨⟨cfg.elevenlabs_keys.getD 0 "", 0, cfg.elevenlabs_keys.length,
      cfg.elevenlabs_keys⟩, ?_, ?_, rfl, ?_⟩
    · unfold getActiveKeyData
      rw [if_neg hlen]
      simp [hc]
    · show 0 < cfg.elevenlabs_keys.length
      omega
    · show (0 : Nat) = if cfg.elevenlabs_index < cfg.elevenlabs_keys.length
        then cfg.elevenlabs_index else 0
      rw [if_neg (by omega)]
  · refine ⟨⟨cfg.elevenlabs_keys.getD cfg.elevenlabs_index "",
      cfg.elevenlabs_index, cfg.elevenlabs_keys.length,
      cfg.elevenlabs_keys⟩, ?_, ?_, rfl, ?_⟩
    · unfold getActiveKeyData
      rw [if_neg hlen]
      simp [hc]
    · show cfg.elevenlabs_index < cfg.elevenlabs_keys.length
      omega
    · show cfg.elevenlabs_index =
        if cfg.elevenlabs_index < cfg.elevenlabs_keys.length
        then cfg.elevenlabs_index else 0
      rw [if_pos (by omega)]

/-- Configuration with two keys and an out-of-range stored index. -/
def twoKeyConfig : ApiConfig :=
  { elevenlabs_keys := ["first-key", "second-key"], elevenlabs_index := 3 }

/-- Counterexample to C4 as stated: with two keys and stored index 3 the
code resolves keys[0], not keys[3 mod 2] = keys[1]. -/
theorem claim_C4_counterexample :
    (getActiveKeyData twoKeyConfig).map KeyData.key ≠
    some (twoKeyConfig.elevenlabs_keys.getD
      (twoKeyConfig.elevenlabs_index % twoKeyConfig.elevenlabs_keys.length) "") := by
  decide

theorem claim_C4_witness :
    ∃ kd, getActiveKeyData twoKeyConfig = some kd ∧
      kd.index < twoKeyConfig.elevenlabs_keys.length ∧
      kd.key = twoKeyConfig.elevenlabs_keys.getD kd.index "" ∧
      kd.index = (if twoKeyConfig.elevenlabs_index <
        twoKeyConfig.elevenlabs_keys.length
        then twoKeyConfig.elevenlabs_index else 0) :=
  claim_C4_key_resolution twoKeyConfig (by decide)

/-- Probe status of a key (elevenLabsManager.ts line 39). -/
inductive KeyStatus
  | active
  | empty
  | error
  deriving DecidableEq, Repr

/-- KeyStats (elevenLabsManager.ts lines 34-40). -/
structure KeyStats where
  key : String
  used : Int
  limit : Int
  remaining : Int
  status : KeyStatus
  deriving DecidableEq, Repr

/-- Response of the subscription quota endpoint as consumed by
checkKeyUsage. -/
structure QuotaResponse where
  ok : Bool
  character_count : Int
  character_limit : Int
  deriving DecidableEq, Repr

/-- checkKeyUsage (elevenLabsManager.ts lines 43-68) over an injected quota
response; a transport or parse failure is an ok = false response. -/
def checkKeyUsage (resp : QuotaResponse) (apiKey : String) : KeyStats :=
  if resp.ok = false then
    { key := apiKey, used := 0, limit := 0, remaining := -1,
      status := KeyStatus.error }
  else
    { key := apiKey, used := resp.character_count,
      limit := resp.character_limit,
      remaining := resp.character_limit - resp.character_count,
      status := if resp.character_limit - resp.character_count > 100
        then KeyStatus.active else KeyStatus.empty }

/-- Comparator of optimizeKeyOrder (elevenLabsManager.ts lines 85-93):
active before non-active, most remaining first among active, ties and
non-active pairs compare equal. -/
def keyCmp (a b : KeyStats) : Int :=
  if a.status = KeyStatus.active ∧ b.status ≠ KeyStatus.active then -1
  else if a.status ≠ KeyStatus.active ∧ b.status = KeyStatus.active then 1
  else if a.status = KeyStatus.active ∧ b.status = KeyStatus.active then
    b.remaining - a.remaining
  else 0

/-- optimizeKeyOrder (elevenLabsManager.ts lines 71-96) over an injected
probe: keys shorter than 10 characters are skipped as invalid, the probed
stats are sorted by keyCmp, and the key strings are returned.  The source
performs no read or write of the persisted config, so the threaded config is
returned unchanged. -/
def optimizeKeyOrder (probe : String → KeyStats) (keys : List String)
    (cfg : ApiConfig) : List String × ApiConfig :=
  if keys = [] then ([], cfg)
  else
    ((stableSort (fun a b => decide (keyCmp a b ≤ 0))
        ((keys.filter (fun k => decide (¬ k.length < 10))).map probe)).map
      KeyStats.key, cfg)

theorem keyLe_trans (a b c : KeyStats)
    (h1 : decide (keyCmp a b ≤ 0) = true)
    (h2 : decide (keyCmp b c ≤ 0) = true) :
    decide (keyCmp a c ≤ 0) = true := by
  simp only [decide_eq_true_eq] at h1 h2 ⊢
  unfold keyCmp at h1 h2 ⊢
  by_cases ha : a.status = KeyStatus.active <;>
    by_cases hb : b.status = KeyStatus.active <;>
    by_cases hc : c.status = KeyStatus.active <;>
    simp only [ha, hb, hc, ne_eq, not_true_eq_false, not_false_eq_true,
      and_true, and_false, true_and, false_and, if_true, if_false,
      ite_true, ite_false] at h1 h2 ⊢ <;>
    omega

theorem keyLe_total (a b : KeyStats) :
    decide (keyCmp a b ≤ 0) = true ∨ decide (keyCmp b a ≤ 0) = true := by
  simp only [decide_eq_true_eq]
  unfold keyCmp
  by_cases ha : a.status = KeyStatus.active <;>
    by_cases hb : b.status = KeyStatus.active <;>
    simp only [ha, hb, ne_eq, not_true_eq_false, not_false_eq_true,
      and_true, and_false, true_and, false_and, if_true, if_false,
      ite_true, ite_false] <;>
    omega

theorem keyLe_active_of (a b : KeyStats)
    (h : decide (keyCmp a b ≤ 0) = true)
    (hb : b.status = KeyStatus.active) : a.status = KeyStatus.active := by
  simp only [decide_eq_true_eq] at h
  by_contra ha
  unfold keyCmp at h
  simp only [ha, hb, ne_eq, not_true_eq_false, not_false_eq_true,
    and_true, and_false, true_and, false_and, if_true, if_false,
    ite_true, ite_false] at h
  omega

theorem keyLe_remaining_of (a b : KeyStats)
    (h : decide (keyCmp a b ≤ 0) = true)
    (ha : a.status = KeyStatus.active) (hb : b.status = KeyStatus.active) :
    b.remaining ≤ a.remaining := by
  simp only [decide_eq_true_eq] at h
  unfold keyCmp at h
  simp only [ha, hb, ne_eq, not_true_eq_false, not_false_eq_true,
    and_true, and_false, true_and, false_and, if_true, if_false,
    ite_true, ite_false] at h
  omega

/-- Three probe-result assignments of the spec example, on 10-character key
names so that the validity filter keeps them. -/
def exampleProbe : String → KeyStats := fun k =>
  if k = "aaaaaaaaaa" then
    { key := k, used := 90, limit := 100, remaining := 10,
      status := KeyStatus.active }
  else if k = "bbbbbbbbbb" then
    { key := k, used := 0, limit := 100, remaining := 100,
      status := KeyStatus.active }
  else
    { key := k, used := 0, limit := 0, remaining := -1,
      status := KeyStatus.error }

/-- Keys of the spec example, 10 characters each. -/
def exampleKeys : List String := ["aaaaaaaaaa", "bbbbbbbbbb", "cccccccccc"]

/-- Probe-result assignment of the spec example on the literal one-character
key names a, b, c. -/
def shortExampleProbe : String → KeyStats := fun k =>
  if k = "a" then
    { key := k, used := 90, limit := 100, remaining := 10,
      status := KeyStatus.active }
  else if k = "b" then
    { key := k, used := 0, limit := 100, remaining := 100,
      status := KeyStatus.active }
  else
    { key := k, used := 0, limit := 0, remaining := -1,
      status := KeyStatus.error }

/-- Configuration with an empty pool and index 0. -/
def emptyConfig : ApiConfig := { elevenlabs_keys := [], elevenlabs_index := 0 }

/-- Claim C5 (amended): optimizeKeyOrder returns a reordering of the input
keys of length at least 10 (shorter keys are dropped as invalid) in which
every active key precedes every non-active key and active keys descend by
remaining quota, the threaded config is untouched, and on the spec example
with 10-character key names the order is b, a, c. -/
theorem claim_C5_optimize_order (probe : String → KeyStats)
    (keys : List String) (cfg : ApiConfig)
    (hpk : ∀ k, (probe k).key = k) :
    ((optimizeKeyOrder probe keys cfg).1).Perm
      (keys.filter (fun k => decide (¬ k.length < 10))) ∧
    (optimizeKeyOrder probe keys cfg).2 = cfg ∧
    ((optimizeKeyOrder probe keys cfg).1).Pairwise
      (fun x y => (probe y).status = KeyStatus.active →
        (probe x).status = KeyStatus.active) ∧
    ((optimizeKeyOrder probe keys cfg).1).Pairwise
      (fun x y => (probe x).status = KeyStatus.active →
        (probe y).status = KeyStatus.active →
        (probe y).remaining ≤ (probe x).remaining) ∧
    (optimizeKeyOrder exampleProbe exampleKeys emptyConfig).1 =
      ["bbbbbbbbbb", "aaaaaaaaaa", "cccccccccc"] := by
  have hexample : (optimizeKeyOrder exampleProbe exampleKeys emptyConfig).1 =
      ["bbbbbbbbbb", "aaaaaaaaaa", "cccccccccc"] := by
    decide
  by_cases hnil : keys = []
  · subst hnil
    refine ⟨by simp [optimizeKeyOrder], by simp [optimizeKeyOrder],
      by simp [optimizeKeyOrder], by simp [optimizeKeyOrder], hexample⟩
  · set le : KeyStats → KeyStats → Bool :=
      fun a b => decide (keyCmp a b ≤ 0) with hle
    set stats : List KeyStats :=
      (keys.filter (fun k => decide (¬ k.length < 10))).map probe with hstats
    have hout : (optimizeKeyOrder probe keys cfg).1 =
        (stableSort le stats).map KeyStats.key := by
      unfold optimizeKeyOrder
      rw [if_neg hnil]
    have hout2 : (optimizeKeyOrder probe keys cfg).2 = cfg := by
      unfold optimizeKeyOrder
      rw [if_neg hnil]
    have hprobe : ∀ s ∈ stableSort le stats, probe s.key = s := by
      intro s hs
      have hmem : s ∈ stats := (stableSort_perm le stats).subset hs
      rw [hstats] at hmem
      rcases List.mem_map.mp hmem with ⟨k, _, rfl⟩
      rw [hpk k]
    have hperm : ((stableSort le stats).map KeyStats.key).Perm
        (keys.filter (fun k => decide (¬ k.length < 10))) := by
      have h1 := ((stableSort_perm le stats).map KeyStats.key)
      have h2 : stats.map KeyStats.key =
          keys.filter (fun k => decide (¬ k.length < 10)) := by
        rw [hstats, List.map_map]
        have hcong : (keys.filter (fun k => decide (¬ k.length < 10))).map
              (KeyStats.key ∘ probe) =
            (keys.filter (fun k => decide (¬ k.length < 10))).map
              (fun k => k) :=
          List.map_congr_left (fun k _ => hpk k)
        rw [hcong]
        simp
      rw [h2] at h1
      exact h1
    have hsorted := stableSort_pairwise le
      (fun a b c => keyLe_trans a b c) (fun a b => keyLe_total a b) stats
    refine ⟨hout ▸ hperm, hout2, ?_, ?_, hexample⟩
    · rw [hout]
      refine List.pairwise_map.mpr ?_
      refine List.Pairwise.imp_of_mem ?_ hsorted
      intro a b ha hb h hyact
      rw [hprobe b hb] at hyact
      rw [hprobe a ha]
      exact keyLe_active_of a b h hyact
    · rw [hout]
      refine List.pairwise_map.mpr ?_
      refine List.Pairwise.imp_of_mem ?_ hsorted
      intro a b ha hb h hxact hyact
      rw [hprobe a ha] at hxact
      rw [hprobe b hb] at hyact
      rw [hprobe a ha, hprobe b hb]
      exact keyLe_remaining_of a b h hxact hyact

/-- Counterexample to C5 as stated: on the literal spec example with
one-character key names a, b, c every key is dropped by the length filter
and the result is empty, not b, a, c. -/
theorem claim_C5_counterexample :
    (optimizeKeyOrder shortExampleProbe ["a", "b", "c"] emptyConfig).1 ≠
      ["b", "a", "c"] := by
  decide

theorem claim_C5_witness :
    ((optimizeKeyOrder exampleProbe exampleKeys emptyConfig).1).Perm
      (exampleKeys.filter (fun k => decide (¬ k.length < 10))) ∧
    (optimizeKeyOrder exampleProbe exampleKeys emptyConfig).2 = emptyConfig ∧
    ((optimizeKeyOrder exampleProbe exampleKeys emptyConfig).1).Pairwise
      (fun x y => (exampleProbe y).status = KeyStatus.active →
        (exampleProbe x).status = KeyStatus.active) ∧
    ((optimizeKeyOrder exampleProbe exampleKeys emptyConfig).1).Pairwise
      (fun x y => (exampleProbe x).status = KeyStatus.active →
        (exampleProbe y).status = KeyStatus.active →
        (exampleProbe y).remaining ≤ (exampleProbe x).remaining) ∧
    (optimizeKeyOrder exampleProbe exampleKeys emptyConfig).1 =
      ["bbbbbbbbbb", "aaaaaaaaaa", "cccccccccc"] :=
  claim_C5_optimize_order exampleProbe exampleKeys emptyConfig
    (fun k => by
      unfold exampleProbe
      split_ifs <;> rfl)

/-- Whitespace in the JavaScript sense (String.prototype.trim): WhiteSpace
and LineTerminator code points. -/
def jsWhitespaceChar (c : Char) : Bool :=
  decide (c.toNat = 0x9 ∨ c.toNat = 0xA ∨ c.toNat = 0xB ∨ c.toNat = 0xC ∨
    c.toNat = 0xD ∨ c.toNat = 0x20 ∨ c.toNat = 0xA0 ∨ c.toNat = 0x1680 ∨
    (0x2000 ≤ c.toNat ∧ c.toNat ≤ 0x200A) ∨ c.toNat = 0x2028 ∨
    c.toNat = 0x2029 ∨ c.toNat = 0x202F ∨ c.toNat = 0x205F ∨
    c.toNat = 0x3000 ∨ c.toNat = 0xFEFF)

/-- Code points matched by the emoji-stripping regular expression of
playNarrative (elevenLabsManager.ts line 152); the two-code-unit surrogate
alternatives are written as the astral code point ranges they denote. -/
def strippedSymbolChar (c : Char) : Bool :=
  decide ((0x2700 ≤ c.toNat ∧ c.toNat ≤ 0x27BF) ∨
    (0xE000 ≤ c.toNat ∧ c.toNat ≤ 0xF8FF) ∨
    (0x1F000 ≤ c.toNat ∧ c.toNat ≤ 0x1F3FF) ∨
    (0x1F400 ≤ c.toNat ∧ c.toNat ≤ 0x1F7FF) ∨
    (0x2011 ≤ c.toNat ∧ c.toNat ≤ 0x26FF) ∨
    (0x1F910 ≤ c.toNat ∧ c.toNat ≤ 0x1F9FF))

/-- String.prototype.trim over a character list. -/
def jsTrim (cs : List Char) : List Char :=
  ((cs.dropWhile jsWhitespaceChar).reverse.dropWhile jsWhitespaceChar).reverse

/-- cleanText of playNarrative (elevenLabsManager.ts line 152): strip the
decorative symbols, then trim. -/
def cleanNarrative (text : String) : List Char :=
  jsTrim (text.data.filter (fun c => !(strippedSymbolChar c)))

/-- Observable outcome of one playNarrative call: the persisted config
after the call, the values notified to subscribers in order, the number of
narration fetches, the number of getActiveKeyData reads, the status of an
exception escaping to the caller (none: the catch block swallowed
everything), and whether audio is left playing. -/
structure NarrationOutcome where
  config : ApiConfig
  notifications : List Bool
  fetches : Nat
  keyLookups : Nat
  raised : Option Nat
  audioPlaying : Bool
  deriving DecidableEq, Repr

/-- playNarrative (elevenLabsManager.ts lines 140-224) over an injected
response sequence: responses k is the HTTP status answered to the attempt
with retryCount k (each recursion level performs one fetch).  In order: the
retry bound aborts notifying false; stopCurrentNarrative notifies false iff
audio was playing; empty or whitespace-only text, then symbol-only text,
return silently; an empty pool or falsy key notifies false; a 2xx response
starts playback (onplay notifies true); 401, 429 and 402 persist
oldIndex + 1 and recurse; any other failure is thrown to the catch block,
which notifies false without touching the index. -/
def playNarrative (responses : Nat → Nat) (text : String) (cfg : ApiConfig)
    (audioPlaying : Bool) (retryCount : Nat) : NarrationOutcome :=
  if h : retryCount > 3 then
    ⟨cfg, [false], 0, 0, none, audioPlaying⟩
  else
    let stopNotes : List Bool := if audioPlaying then [false] else []
    if text = "" ∨ jsTrim text.data = [] then
      ⟨cfg, stopNotes, 0, 0, none, false⟩
    else if cleanNarrative text = [] then
      ⟨cfg, stopNotes, 0, 0, none, false⟩
    else
      match getActiveKeyData cfg with
      | none => ⟨cfg, stopNotes ++ [false], 0, 1, none, false⟩
      | some kd =>
        if kd.key = "" then ⟨cfg, stopNotes ++ [false], 0, 1, none, false⟩
        else
          let st := responses retryCount
          if 200 ≤ st ∧ st ≤ 299 then
            ⟨cfg, stopNotes ++ [true], 1, 1, none, true⟩
          else if st = 401 ∨ st = 429 ∨ st = 402 then
            let out := playNarrative responses text
              (switchToNextKey cfg kd.index) false (retryCount + 1)
            ⟨out.config, stopNotes ++ out.notifications, out.fetches + 1,
              out.keyLookups + 1, out.raised, out.audioPlaying⟩
          else
            ⟨cfg, stopNotes ++ [false], 1, 1, none, false⟩
termination_by 4 - retryCount
decreasing_by omega

theorem switchToNextKey_keys (cfg : ApiConfig) (i : Nat) :
    (switchToNextKey cfg i).elevenlabs_keys = cfg.elevenlabs_keys := rfl

theorem getActiveKeyData_eq_some (cfg : ApiConfig)
    (h : cfg.elevenlabs_keys ≠ []) :
    getActiveKeyData cfg = some
      ⟨cfg.elevenlabs_keys.getD
        (if cfg.elevenlabs_keys.length ≤ cfg.elevenlabs_index then 0
          else cfg.elevenlabs_index) "",
       (if cfg.elevenlabs_keys.length ≤ cfg.elevenlabs_index then 0
          else cfg.elevenlabs_index),
       cfg.elevenlabs_keys.length, cfg.elevenlabs_keys⟩ := by
  unfold getActiveKeyData
  rw [if_neg (fun h0 => h (List.length_eq_zero.mp h0))]

theorem resolvedKey_mem (cfg : ApiConfig) (h : cfg.elevenlabs_keys ≠ []) :
    cfg.elevenlabs_keys.getD
      (if cfg.elevenlabs_keys.length ≤ cfg.elevenlabs_index then 0
        else cfg.elevenlabs_index) "" ∈ cfg.elevenlabs_keys := by
  have hlen : 0 < cfg.elevenlabs_keys.length := List.length_pos.mpr h
  by_cases hc : cfg.elevenlabs_keys.length ≤ cfg.elevenlabs_index
  · rw [if_pos hc, List.getD_eq_getElem _ _ hlen]
    exact List.getElem_mem hlen
  · rw [if_neg hc, List.getD_eq_getElem _ _ (by omega)]
    exact List.getElem_mem (by omega)

theorem playNarrative_maxRetry (responses : Nat → Nat) (text : String)
    (cfg : ApiConfig) (ap : Bool) (k : Nat) (hk : k > 3) :
    playNarrative responses text cfg ap k =
      ⟨cfg, [false], 0, 0, none, ap⟩ := by
  rw [playNarrative]
  rw [dif_pos hk]

theorem playNarrative_auth_step (responses : Nat → Nat) (text : String)
    (cfg : ApiConfig) (ap : Bool) (k : Nat) (hk : ¬ k > 3)
    (hkeys : cfg.elevenlabs_keys ≠ [])
    (hkey0 : "" ∉ cfg.elevenlabs_keys)
    (htext : ¬ (text = "" ∨ jsTrim text.data = []))
    (hclean : ¬ cleanNarrative text = [])
    (hauth : responses k = 401 ∨ responses k = 429 ∨ responses k = 402) :
    playNarrative responses text cfg ap k =
      ⟨(playNarrative responses text (switchToNextKey cfg
          (if cfg.elevenlabs_keys.length ≤ cfg.elevenlabs_index then 0
            else cfg.elevenlabs_index)) false (k + 1)).config,
       (if ap then [false] else []) ++
         (playNarrative responses text (switchToNextKey cfg
           (if cfg.elevenlabs_keys.length ≤ cfg.elevenlabs_index then 0
             else cfg.elevenlabs_index)) false (k + 1)).notifications,
       (playNarrative responses text (switchToNextKey cfg
         (if cfg.elevenlabs_keys.length ≤ cfg.elevenlabs_index then 0
           else cfg.elevenlabs_index)) false (k + 1)).fetches + 1,
       (playNarrative responses text (switchToNextKey cfg
         (if cfg.elevenlabs_keys.length ≤ cfg.elevenlabs_index then 0
           else cfg.elevenlabs_index)) false (k + 1)).keyLookups + 1,
       (playNarrative responses text (switchToNextKey cfg
         (if cfg.elevenlabs_keys.length ≤ cfg.elevenlabs_index then 0
           else cfg.elevenlabs_index)) false (k + 1)).raised,
       (playNarrative responses text (switchToNextKey cfg
         (if cfg.elevenlabs_keys.length ≤ cfg.elevenlabs_index then 0
           else cfg.elevenlabs_index)) false (k + 1)).audioPlaying⟩ := by
  have hkey : cfg.elevenlabs_keys.getD
      (if cfg.elevenlabs_keys.length ≤ cfg.elevenlabs_index then 0
        else cfg.elevenlabs_index) "" ≠ "" := by
    intro h0
    exact hkey0 (h0 ▸ resolvedKey_mem cfg hkeys)
  have hnotok : ¬ (200 ≤ responses k ∧ responses k ≤ 299) := by
    rcases hauth with h | h | h <;> omega
  rw [playNarrative]
  rw [dif_neg hk]
  simp only [if_neg htext, if_neg hclean, getActiveKeyData_eq_some cfg hkeys,
    if_neg hkey, if_neg hnotok, if_pos hauth]

theorem playNarrative_all_auth_fail (responses : Nat → Nat) (text : String)
    (htext : ¬ (text = "" ∨ jsTrim text.data = []))
    (hclean : ¬ cleanNarrative text = [])
    (hfail : ∀ i, i ≤ 3 →
      responses i = 401 ∨ responses i = 429 ∨ responses i = 402) :
    ∀ (m : Nat) (cfg : ApiConfig) (ap : Bool) (k : Nat), k + m = 4 →
      cfg.elevenlabs_keys ≠ [] → "" ∉ cfg.elevenlabs_keys →
      (playNarrative responses text cfg ap k).fetches = m ∧
      (playNarrative responses text cfg ap k).raised = none ∧
      (playNarrative responses text cfg ap k).notifications.getLast? =
        some false := by
  intro m
  induction m with
  | zero =>
    intro cfg ap k hkm _ _
    rw [playNarrative_maxRetry responses text cfg ap k (by omega)]
    simp
  | succ n ih =>
    intro cfg ap k hkm hkeys hkey0
    rw [playNarrative_auth_step responses text cfg ap k (by omega) hkeys hkey0
      htext hclean (hfail k (by omega))]
    have hrec := ih (switchToNextKey cfg
        (if cfg.elevenlabs_keys.length ≤ cfg.elevenlabs_index then 0
          else cfg.elevenlabs_index)) false (k + 1) (by omega)
      (by rw [switchToNextKey_keys]; exact hkeys)
      (by rw [switchToNextKey_keys]; exact hkey0)
    rcases hrec with ⟨hf, hr, hn⟩
    refine ⟨by rw [hf], hr, ?_⟩
    have hne : (playNarrative responses text (switchToNextKey cfg
        (if cfg.elevenlabs_keys.length ≤ cfg.elevenlabs_index then 0
          else cfg.elevenlabs_index)) false (k + 1)).notifications ≠ [] := by
      intro h0
      rw [h0] at hn
      exact absurd hn (by simp)
    rw [List.getLast?_append]
    rw [hn]
    rfl

/-- Claim C3: with a non-empty pool of non-empty keys and speakable text,
when every attempt is answered 401, 429 or 402, playNarrative performs the
initial attempt plus exactly 3 retries (4 fetches, hence at most 3 retries
beyond the initial attempt and never a fifth attempt), lets no exception
escape, and the last value notified to subscribers is false. -/
theorem claim_C3_retry_bound (responses : Nat → Nat) (text : String)
    (cfg : ApiConfig) (ap : Bool)
    (hkeys : cfg.elevenlabs_keys ≠ [])
    (hkey0 : "" ∉ cfg.elevenlabs_keys)
    (htext : ¬ (text = "" ∨ jsTrim text.data = []))
    (hclean : ¬ cleanNarrative text = [])
    (hfail : ∀ i, i ≤ 3 →
      responses i = 401 ∨ responses i = 429 ∨ responses i = 402) :
    (playNarrative responses text cfg ap 0).fetches = 4 ∧
    (playNarrative responses text cfg ap 0).raised = none ∧
    (playNarrative responses text cfg ap 0).notifications.getLast? =
      some false :=
  playNarrative_all_auth_fail responses text htext hclean hfail 4 cfg ap 0
    rfl hkeys hkey0

/-- Claim C9: a failing narration response whose status is not 401, 429 or
402 leaves the persisted config (hence the rotation index) unchanged, makes
exactly one fetch (no retry), lets no exception escape (the throw is caught
in the same call), and notifies false last. -/
theorem claim_C9_transient_no_rotation (responses : Nat → Nat) (text : String)
    (cfg : ApiConfig) (ap : Bool)
    (hkeys : cfg.elevenlabs_keys ≠ [])
    (hkey0 : "" ∉ cfg.elevenlabs_keys)
    (htext : ¬ (text = "" ∨ jsTrim text.data = []))
    (hclean : ¬ cleanNarrative text = [])
    (hfailed : ¬ (200 ≤ responses 0 ∧ responses 0 ≤ 299))
    (hnotauth : ¬ (responses 0 = 401 ∨ responses 0 = 429 ∨ responses 0 = 402)) :
    (playNarrative responses text cfg ap 0).config = cfg ∧
    (playNarrative responses text cfg ap 0).fetches = 1 ∧
    (playNarrative responses text cfg ap 0).raised = none ∧
    (playNarrative responses text cfg ap 0).notifications.getLast? =
      some false := by
  have hkey : cfg.elevenlabs_keys.getD
      (if cfg.elevenlabs_keys.length ≤ cfg.elevenlabs_index then 0
        else cfg.elevenlabs_index) "" ≠ "" := by
    intro h0
    exact hkey0 (h0 ▸ resolvedKey_mem cfg hkeys)
  rw [playNarrative]
  rw [dif_neg (by omega : ¬ (0 : Nat) > 3)]
  simp only [if_neg htext, if_neg hclean, getActiveKeyData_eq_some cfg hkeys,
    if_neg hkey, if_neg hfailed, if_neg hnotauth]
  refine ⟨trivial, trivial, trivial, ?_⟩
  simp [List.getLast?_append]

/-- Claim C10: empty, whitespace-only or symbol-only text returns before any
key lookup, with no fetch, an unchanged config, no escaping exception, and
no notification beyond the false of cancelling an already-playing
narration. -/
theorem claim_C10_unspeakable_noop (responses : Nat → Nat) (text : String)
    (cfg : ApiConfig) (ap : Bool)
    (h : text = "" ∨ jsTrim text.data = [] ∨ cleanNarrative text = []) :
    playNarrative responses text cfg ap 0 =
      ⟨cfg, if ap then [false] else [], 0, 0, none, false⟩ := by
  rw [playNarrative]
  rw [dif_neg (by omega : ¬ (0 : Nat) > 3)]
  by_cases h1 : text = "" ∨ jsTrim text.data = []
  · rw [if_pos h1]
  · rw [if_neg h1]
    have h2 : cleanNarrative text = [] := by
      rcases h with h | h | h
      · exact absurd (Or.inl h) h1
      · exact absurd (Or.inr h) h1
      · exact h
    rw [if_pos h2]

/-- Pool of two plausible keys with index 0, for the narration witnesses. -/
def narrationConfig : ApiConfig :=
  { elevenlabs_keys := ["valid-key-0000", "valid-key-0001"],
    elevenlabs_index := 0 }

theorem claim_C3_witness :
    (playNarrative (fun _ => 401) "hello" narrationConfig false 0).fetches = 4 ∧
    (playNarrative (fun _ => 401) "hello" narrationConfig false 0).raised =
      none ∧
    (playNarrative (fun _ => 401) "hello" narrationConfig
      false 0).notifications.getLast? = some false :=
  claim_C3_retry_bound (fun _ => 401) "hello" narrationConfig false
    (by decide) (by decide) (by decide) (by decide) (fun i _ => Or.inl rfl)

theorem claim_C9_witness :
    (playNarrative (fun _ => 500) "hello" narrationConfig false 0).config =
      narrationConfig ∧
    (playNarrative (fun _ => 500) "hello" narrationConfig false 0).fetches = 1 ∧
    (playNarrative (fun _ => 500) "hello" narrationConfig false 0).raised =
      none ∧
    (playNarrative (fun _ => 500) "hello" narrationConfig
      false 0).notifications.getLast? = some false :=
  claim_C9_transient_no_rotation (fun _ => 500) "hello" narrationConfig false
    (by decide) (by decide) (by decide) (by decide) (by decide) (by decide)

theorem claim_C10_witness :
    playNarrative (fun _ => 200) "✂" narrationConfig true 0 =
      ⟨narrationConfig, if true then [false] else [], 0, 0, none, false⟩ :=
  claim_C10_unspeakable_noop (fun _ => 200) "✂" narrationConfig true
    (Or.inr (Or.inr (by decide)))
